import Mathlib

/-!
Shallow embedding of the termpix image-acquisition and size-resolution core
(`src/main.rs`) together with proofs about its sizing and decoding behaviour.

Machine integers are modelled as `Nat` with an explicit `% 2 ^ 32` (u32) or
`% 2 ^ 16` (u16) wherever the Rust arithmetic can overflow; the wrapping
semantics of release builds is used.  The `f32` arithmetic inside
`scale_dimension` is modelled exactly: `toF32 : ℚ → ℚ` maps a rational to the
nearest IEEE binary32 value (24-bit significand, round to nearest, ties to
even), which is precisely the rounding Rust performs for `u32 as f32`
conversions and for each `f32` multiplication, division and addition, as long
as all values stay inside the normal (non-overflowing, non-subnormal) range —
which they do for every value reachable from `u32` inputs in this program.
File and terminal I/O, the SVG parser/rasterizer (`usvg`/`resvg`) and the
raster decoder (`image::open`) are external collaborators, modelled as oracle
fields of a `World` structure.
-/

/-- Round a rational to the nearest integer, ties going to the even integer. -/
def rne (x : ℚ) : ℤ :=
  if x - (⌊x⌋ : ℚ) < 1/2 then ⌊x⌋
  else if 1/2 < x - (⌊x⌋ : ℚ) then ⌊x⌋ + 1
  else if 2 ∣ ⌊x⌋ then ⌊x⌋ else ⌊x⌋ + 1

/-- Integer base-2 logarithm of a positive rational: the unique `k` with
`2 ^ k ≤ x < 2 ^ (k + 1)` (junk value for `x ≤ 0`). -/
def qlog2 (x : ℚ) : ℤ :=
  if x < 2 ^ ((Nat.log2 x.num.toNat : ℤ) - (Nat.log2 x.den : ℤ))
  then (Nat.log2 x.num.toNat : ℤ) - (Nat.log2 x.den : ℤ) - 1
  else (Nat.log2 x.num.toNat : ℤ) - (Nat.log2 x.den : ℤ)

/-- Round a nonnegative rational to the nearest IEEE binary32 value:
round to a 24-bit significand, ties to even.  This is exact for every value
this program can produce (all are positive, far from overflow and from the
subnormal range, so exponent clamping never triggers). -/
def toF32 (x : ℚ) : ℚ :=
  if x ≤ 0 then 0
  else (rne (x / 2 ^ (qlog2 x - 23)) : ℚ) * 2 ^ (qlog2 x - 23)

/-- The modulus of `u32` arithmetic. -/
def U32_MOD : ℕ := 4294967296

/-- The largest `u32`; Rust `f32 as u32` casts saturate here. -/
def U32_MAX : ℕ := 4294967295

/-- Embedding of `scale_dimension` (main.rs:161-163):
`(orig_this as f32 * other as f32 / orig_other as f32 + 0.5) as u32`.
Each cast and each arithmetic step rounds to binary32; the final `as u32`
truncates toward zero and saturates (Rust 1.45+ semantics).  When
`orig_other = 0` the division yields NaN (cast to 0) for a zero numerator and
+inf (cast to `U32_MAX`) otherwise. -/
def scale_dimension (other orig_this orig_other : ℕ) : ℕ :=
  let a := toF32 (orig_this : ℚ)
  let b := toF32 (other : ℚ)
  let p := toF32 (a * b)
  if orig_other = 0 then
    if p = 0 then 0 else U32_MAX
  else
    let q := toF32 (p / toF32 (orig_other : ℚ))
    let s := toF32 (q + 1/2)
    (min ⌊s⌋ (U32_MAX : ℤ)).toNat

/-- Embedding of `fit_to_size` (main.rs:165-193).  `2 *` is a u32
multiplication, hence the `% U32_MOD`. -/
def fit_to_size (orig_width orig_height terminal_width terminal_height : ℕ)
    (max_width max_height : Option ℕ) : ℕ × ℕ :=
  let target_width :=
    match max_width with
    | some mw => min mw terminal_width
    | none => terminal_width
  let target_height :=
    2 * (match max_height with
         | some mh => min mh terminal_height
         | none => terminal_height) % U32_MOD
  let calculated_width := scale_dimension target_height orig_width orig_height
  if calculated_width ≤ target_width then (calculated_width, target_height)
  else (target_width, scale_dimension target_width orig_height orig_width)

/-- Embedding of `determine_size` (main.rs:136-159).  The `terminal_size()`
call is modelled by the `surface` argument (`None` = size unavailable, in
which case the program exits, modelled as `none`).  `h * 2` is u32 arithmetic;
`terminal_height - 1` is u16 arithmetic, so it wraps to 65535 when the
reported row count is 0 (release-build wrapping semantics). -/
def determine_size (flag_width flag_height flag_max_width flag_max_height : Option ℕ)
    (orig_width orig_height : ℕ) (surface : Option (ℕ × ℕ)) : Option (ℕ × ℕ) :=
  match flag_width, flag_height with
  | some w, some h => some (w, h * 2 % U32_MOD)
  | some w, none => some (w, scale_dimension w orig_height orig_width)
  | none, some h =>
      some (scale_dimension (h * 2 % U32_MOD) orig_width orig_height, h * 2 % U32_MOD)
  | none, none =>
      match surface with
      | some (cols, rows) =>
          some (fit_to_size orig_width orig_height cols ((rows + 65535) % 65536)
                flag_max_width flag_max_height)
      | none => none

/-- Transcribes the specification's width budget for fit-to-surface mode:
`min(max_width, columns)` if `max_width` is given, else `columns`. -/
def target_width_budget (max_width : Option ℕ) (terminal_width : ℕ) : ℕ :=
  match max_width with
  | some mw => min mw terminal_width
  | none => terminal_width

/-- Transcribes the specification's pixel-height budget for fit-to-surface
mode: `2 * (min(max_height, usable_rows))` if `max_height` is given, else
`2 * usable_rows`. -/
def target_height_budget (max_height : Option ℕ) (usable_rows : ℕ) : ℕ :=
  2 * (match max_height with
       | some mh => min mh usable_rows
       | none => usable_rows)

/-- Transcribes the specification's rounding policy (§4.2): round to nearest
with `floor(v + 0.5)` semantics on the exact rational value.  Used to state
the claims; the code itself computes in f32. -/
def ratRound (v : ℚ) : ℕ := (⌊v + 1/2⌋).toNat

/-- The five recognized resampling kernels (main.rs:99-108). -/
inductive FilterType
  | Nearest
  | Triangle
  | CatmullRom
  | Gaussian
  | Lanczos3
  deriving DecidableEq

/-- Embedding of `get_filter` (main.rs:99-108); the Rust `match` on the string
is an if-chain of equality tests. -/
def get_filter (str : String) : Option FilterType :=
  if str = "nearest" then some .Nearest
  else if str = "triangle" then some .Triangle
  else if str = "catmullrom" then some .CatmullRom
  else if str = "gaussian" then some .Gaussian
  else if str = "lanczos3" then some .Lanczos3
  else none

/-- Embedding of `LoadImageError` (main.rs:50-54); the wrapped
`image::ImageError` is abstracted to its message. -/
inductive LoadImageError
  | SvgError : String → LoadImageError
  | ImageError : String → LoadImageError
  deriving DecidableEq

/-- An RGBA pixel buffer (`DynamicImage` after decoding). -/
structure PixelBuffer where
  width : ℕ
  height : ℕ
  pixel : ℕ → ℕ → ℕ × ℕ × ℕ × ℕ

/-- The rasterizer's output: dimensions plus a row-major RGBA byte array. -/
structure RasterImage where
  width : ℕ
  height : ℕ
  data : ℕ → ℕ

/-- Tokens standing for parsed SVG documents (`usvg::Tree`). -/
abbrev SvgDoc : Type := ℕ

/-- The external collaborators of the core, as oracles: `usvg::Tree::from_file`
(`none` = parse failure), `resvg::render` (`none` = no output),
`image::open` (message on failure) and `terminal_size()`. -/
structure World where
  svgParse : String → Option SvgDoc
  svgRender : SvgDoc → Option RasterImage
  imageOpen : String → Except String PixelBuffer
  terminalSize : Option (ℕ × ℕ)

/-- The pixel-copy loop of the SVG branch (main.rs:80-92): each pixel `(x,y)`
takes the four bytes at offset `(y * width + x) * 4`. -/
def svg_to_buffer (img : RasterImage) : PixelBuffer :=
  { width := img.width
    height := img.height
    pixel := fun x y =>
      (img.data ((y * img.width + x) * 4),
       img.data ((y * img.width + x) * 4 + 1),
       img.data ((y * img.width + x) * 4 + 2),
       img.data ((y * img.width + x) * 4 + 3)) }

/-- The raster path `Ok(image::open(path)?)` (main.rs:96): any decoder error
is wrapped into `LoadImageError::ImageError`. -/
def image_open (w : World) (path : String) : Except LoadImageError PixelBuffer :=
  match w.imageOpen path with
  | .ok img => .ok img
  | .error e => .error (.ImageError e)

/-- Models Rust `str::ends_with` (a byte-suffix test) as a suffix test on the
character list of the string. -/
def ends_with (path suffix : String) : Bool :=
  suffix.data.isSuffixOf path.data

/-- Embedding of `get_image` (main.rs:71-97).  Note the control flow of the
source: a parse failure returns `SvgError`, but when the parsed document
rasterizes to `None` the function falls through to the raster path
`image::open` on the same file. -/
def get_image (w : World) (path : String) : Except LoadImageError PixelBuffer :=
  if ends_with path ".svg" then
    match w.svgParse path with
    | none => .error (.SvgError "Failed to load svg")
    | some doc =>
      match w.svgRender doc with
      | some svg_image => .ok (svg_to_buffer svg_image)
      | none => image_open w path
  else image_open w path

/-- The command-line arguments (main.rs:38-48). -/
structure Args where
  flag_width : Option ℕ
  flag_height : Option ℕ
  flag_max_width : Option ℕ
  flag_max_height : Option ℕ
  flag_true_colour : Bool
  flag_true_color : Bool
  flag_filter : Option String
  arg_file : String

/-- The ways `main` terminates without rendering: unknown filter name
(`exit(-1)`), image load failure (`exit(-1)`), undeterminable terminal size
(`exit(1)`). -/
inductive ExitReason
  | unknownFilter : String → ExitReason
  | loadFailure : LoadImageError → ExitReason
  | noSurface : ExitReason
  deriving DecidableEq

/-- The process exit status of each early-termination path of `main`. -/
def exit_code : ExitReason → ℤ
  | .unknownFilter _ => -1
  | .loadFailure _ => -1
  | .noSurface => 1

/-- The handoff to the external renderer `termpix::print_image`
(main.rs:133). -/
structure RenderCall where
  buffer : PixelBuffer
  true_colour : Bool
  width : ℕ
  height : ℕ
  filter : FilterType

/-- Embedding of `main` (main.rs:110-134): resolve the filter (before any
image I/O), acquire the image, resolve the size, hand off to the renderer. -/
def main_flow (w : World) (args : Args) : Except ExitReason RenderCall :=
  let filter_result : Except ExitReason FilterType :=
    match args.flag_filter with
    | none => .ok .Gaussian
    | some f =>
      match get_filter f with
      | some flt => .ok flt
      | none => .error (.unknownFilter f)
  match filter_result with
  | .error e => .error e
  | .ok filter =>
    match get_image w args.arg_file with
    | .error e => .error (.loadFailure e)
    | .ok img =>
      match determine_size args.flag_width args.flag_height args.flag_max_width
              args.flag_max_height img.width img.height w.terminalSize with
      | none => .error .noSurface
      | some (width, height) =>
        .ok { buffer := img
              true_colour := args.flag_true_colour || args.flag_true_color
              width := width
              height := height
              filter := filter }

/-- The width handed to the renderer, if any. -/
def render_width : Except ExitReason RenderCall → Option ℕ
  | .ok c => some c.width
  | .error _ => none

/-! ### Properties of the rounding primitives -/

lemma rne_intCast (n : ℤ) : rne (n : ℚ) = n := by
  unfold rne
  rw [Int.floor_intCast]
  rw [if_pos (by norm_num)]

lemma rne_le (x : ℚ) : (rne x : ℚ) ≤ x + 1/2 := by
  have hfl : (⌊x⌋ : ℚ) ≤ x := Int.floor_le x
  unfold rne
  split
  next h => linarith
  next h =>
    have h' : 1/2 ≤ x - (⌊x⌋ : ℚ) := le_of_not_lt h
    split
    next h2 => push_cast; linarith
    next h2 =>
      split
      next h3 => linarith
      next h3 => push_cast; linarith

lemma rne_ge (x : ℚ) : x - 1/2 ≤ (rne x : ℚ) := by
  have hfl : x < (⌊x⌋ : ℚ) + 1 := Int.lt_floor_add_one x
  unfold rne
  split
  next h => linarith
  next h =>
    split
    next h2 => push_cast; linarith
    next h2 =>
      have h' : x - (⌊x⌋ : ℚ) ≤ 1/2 := le_of_not_lt h2
      split
      next h3 => linarith
      next h3 => push_cast; linarith

lemma rne_nonneg (x : ℚ) (hx : 0 ≤ x) : 0 ≤ rne x := by
  have h0 : (0 : ℤ) ≤ ⌊x⌋ := Int.floor_nonneg.mpr hx
  unfold rne
  split
  · exact h0
  · split
    · omega
    · split
      · exact h0
      · omega

lemma rne_eq_of_lt_half (x : ℚ) (n : ℤ) (h1 : (n : ℚ) ≤ x) (h2 : x < (n : ℚ) + 1/2) :
    rne x = n := by
  have hfl : ⌊x⌋ = n := Int.floor_eq_iff.mpr ⟨h1, by push_cast; linarith⟩
  unfold rne
  rw [hfl, if_pos (by push_cast; linarith)]

lemma rne_eq_of_gt_half (x : ℚ) (n : ℤ) (h1 : (n : ℚ) + 1/2 < x) (h2 : x ≤ (n : ℚ) + 1) :
    rne x = n + 1 := by
  rcases lt_or_eq_of_le h2 with hlt | heq
  · have hfl : ⌊x⌋ = n := Int.floor_eq_iff.mpr ⟨by linarith, by push_cast; linarith⟩
    unfold rne
    rw [hfl, if_neg (by push_cast; linarith), if_pos (by push_cast; linarith)]
  · rw [show x = ((n + 1 : ℤ) : ℚ) by push_cast; linarith, rne_intCast]

/-! ### Properties of `qlog2` -/

lemma nat_log2_bounds (n : ℕ) (hn : n ≠ 0) :
    ((2 : ℚ) ^ (Nat.log2 n) ≤ (n : ℚ)) ∧ ((n : ℚ) < 2 ^ (Nat.log2 n + 1)) := by
  rw [Nat.log2_eq_log_two]
  constructor
  · exact_mod_cast Nat.pow_log_le_self 2 hn
  · exact_mod_cast Nat.lt_pow_succ_log_self (by norm_num) n

lemma qlog2_spec (x : ℚ) (hx : 0 < x) :
    (2 : ℚ) ^ qlog2 x ≤ x ∧ x < 2 ^ (qlog2 x + 1) := by
  have hnum : 0 < x.num := Rat.num_pos.mpr hx
  have hp : x.num.toNat ≠ 0 := by omega
  have hd0 : x.den ≠ 0 := x.den_pos.ne'
  have hd : (0 : ℚ) < (x.den : ℚ) := by exact_mod_cast x.den_pos
  obtain ⟨hp1, hp2⟩ := nat_log2_bounds x.num.toNat hp
  obtain ⟨hd1, hd2⟩ := nat_log2_bounds x.den hd0
  have hx_eq : x = (x.num.toNat : ℚ) / (x.den : ℚ) := by
    have h1 : ((x.num.toNat : ℕ) : ℚ) = ((x.num : ℤ) : ℚ) := by
      norm_cast
      omega
    rw [h1, Rat.num_div_den]
  have hppos : (0 : ℚ) < (x.num.toNat : ℚ) := by
    have h2 : 0 < x.num.toNat := by omega
    exact_mod_cast h2
  unfold qlog2
  set lp := Nat.log2 x.num.toNat with hlp
  set ld := Nat.log2 x.den with hld
  have hlow : (2 : ℚ) ^ ((lp : ℤ) - (ld : ℤ) - 1) ≤ x := by
    rw [hx_eq]
    rw [show ((lp : ℤ) - (ld : ℤ) - 1) = ((lp : ℕ) : ℤ) - (((ld + 1 : ℕ)) : ℤ) by
      push_cast; ring]
    rw [zpow_sub₀ (by norm_num : (2 : ℚ) ≠ 0), zpow_natCast, zpow_natCast]
    rw [div_le_div_iff₀ (by positivity) hd]
    exact mul_le_mul hp1 (le_of_lt hd2) (le_of_lt hd) (le_of_lt hppos)
  have hup : x < (2 : ℚ) ^ ((lp : ℤ) - (ld : ℤ) + 1) := by
    rw [hx_eq]
    rw [show ((lp : ℤ) - (ld : ℤ) + 1) = (((lp + 1 : ℕ)) : ℤ) - ((ld : ℕ) : ℤ) by
      push_cast; ring]
    rw [zpow_sub₀ (by norm_num : (2 : ℚ) ≠ 0), zpow_natCast, zpow_natCast]
    rw [div_lt_div_iff₀ hd (by positivity)]
    have s1 : (x.num.toNat : ℚ) * 2 ^ (ld : ℕ) < 2 ^ (lp + 1 : ℕ) * 2 ^ (ld : ℕ) :=
      mul_lt_mul_of_pos_right hp2 (by positivity)
    have s2 : (2 : ℚ) ^ (lp + 1 : ℕ) * 2 ^ (ld : ℕ) ≤ 2 ^ (lp + 1 : ℕ) * (x.den : ℚ) :=
      mul_le_mul_of_nonneg_left hd1 (by positivity)
    linarith
  split
  next h =>
    constructor
    · exact hlow
    · rw [show ((lp : ℤ) - (ld : ℤ) - 1 + 1) = (lp : ℤ) - (ld : ℤ) by ring]
      exact h
  next h =>
    exact ⟨le_of_not_lt h, hup⟩

lemma qlog2_unique (x : ℚ) (k : ℤ) (hx : 0 < x) (h1 : (2 : ℚ) ^ k ≤ x)
    (h2 : x < 2 ^ (k + 1)) : qlog2 x = k := by
  obtain ⟨hs1, hs2⟩ := qlog2_spec x hx
  have ha : (2 : ℚ) ^ qlog2 x < 2 ^ (k + 1) := lt_of_le_of_lt hs1 h2
  have hb : (2 : ℚ) ^ k < 2 ^ (qlog2 x + 1) := lt_of_le_of_lt h1 hs2
  have ha2 : qlog2 x < k + 1 := (zpow_lt_zpow_iff_right₀ (by norm_num : (1 : ℚ) < 2)).mp ha
  have hb2 : k < qlog2 x + 1 := (zpow_lt_zpow_iff_right₀ (by norm_num : (1 : ℚ) < 2)).mp hb
  omega

/-! ### Properties of `toF32` -/

lemma toF32_of_nonpos (x : ℚ) (hx : x ≤ 0) : toF32 x = 0 := by
  unfold toF32
  rw [if_pos hx]

lemma toF32_eq_of_pos (x : ℚ) (hx : 0 < x) :
    toF32 x = (rne (x / 2 ^ (qlog2 x - 23)) : ℚ) * 2 ^ (qlog2 x - 23) := by
  unfold toF32
  rw [if_neg (not_le.mpr hx)]

lemma toF32_nonneg (x : ℚ) : 0 ≤ toF32 x := by
  rcases le_or_lt x 0 with hx | hx
  · rw [toF32_of_nonpos x hx]
  · rw [toF32_eq_of_pos x hx]
    have h1 : 0 ≤ rne (x / 2 ^ (qlog2 x - 23)) :=
      rne_nonneg _ (by positivity)
    have h2 : (0 : ℚ) < 2 ^ (qlog2 x - 23) := by positivity
    have h1Q : (0 : ℚ) ≤ (rne (x / 2 ^ (qlog2 x - 23)) : ℚ) := by exact_mod_cast h1
    positivity

lemma toF32_le (x : ℚ) (hx : 0 ≤ x) : toF32 x ≤ x * (16777217/16777216) := by
  rcases eq_or_lt_of_le hx with hx0 | hxp
  · rw [← hx0, toF32_of_nonpos 0 le_rfl]
    norm_num
  · rw [toF32_eq_of_pos x hxp]
    have hq := qlog2_spec x hxp
    have hpow : (0 : ℚ) < 2 ^ (qlog2 x - 23) := by positivity
    have h1 : (rne (x / 2 ^ (qlog2 x - 23)) : ℚ) ≤ x / 2 ^ (qlog2 x - 23) + 1/2 :=
      rne_le _
    have h2 : (rne (x / 2 ^ (qlog2 x - 23)) : ℚ) * 2 ^ (qlog2 x - 23) ≤
        (x / 2 ^ (qlog2 x - 23) + 1/2) * 2 ^ (qlog2 x - 23) :=
      mul_le_mul_of_nonneg_right h1 (le_of_lt hpow)
    have h3 : (x / 2 ^ (qlog2 x - 23) + 1/2) * 2 ^ (qlog2 x - 23) =
        x + 2 ^ (qlog2 x - 23) / 2 := by
      field_simp
      ring
    have h4 : (2 : ℚ) ^ (qlog2 x - 23) / 2 ≤ x * (1/16777216) := by
      have e1 : (2 : ℚ) ^ (qlog2 x - 23) / 2 = 2 ^ qlog2 x * (1/16777216) := by
        rw [show qlog2 x - 23 = qlog2 x + (-23) by ring,
            zpow_add₀ (by norm_num : (2:ℚ) ≠ 0)]
        norm_num
        ring
      rw [e1]
      exact mul_le_mul_of_nonneg_right hq.1 (by norm_num)
    have h5 : x + x * (1/16777216) = x * (16777217/16777216) := by ring
    linarith
  
lemma toF32_ge (x : ℚ) (hx : 0 ≤ x) : x * (16777215/16777216) ≤ toF32 x := by
  rcases eq_or_lt_of_le hx with hx0 | hxp
  · rw [← hx0, toF32_of_nonpos 0 le_rfl]
    norm_num
  · rw [toF32_eq_of_pos x hxp]
    have hq := qlog2_spec x hxp
    have hpow : (0 : ℚ) < 2 ^ (qlog2 x - 23) := by positivity
    have h1 : x / 2 ^ (qlog2 x - 23) - 1/2 ≤ (rne (x / 2 ^ (qlog2 x - 23)) : ℚ) :=
      rne_ge _
    have h2 : (x / 2 ^ (qlog2 x - 23) - 1/2) * 2 ^ (qlog2 x - 23) ≤
        (rne (x / 2 ^ (qlog2 x - 23)) : ℚ) * 2 ^ (qlog2 x - 23) :=
      mul_le_mul_of_nonneg_right h1 (le_of_lt hpow)
    have h3 : (x / 2 ^ (qlog2 x - 23) - 1/2) * 2 ^ (qlog2 x - 23) =
        x - 2 ^ (qlog2 x - 23) / 2 := by
      field_simp
      ring
    have h4 : (2 : ℚ) ^ (qlog2 x - 23) / 2 ≤ x * (1/16777216) := by
      have e1 : (2 : ℚ) ^ (qlog2 x - 23) / 2 = 2 ^ qlog2 x * (1/16777216) := by
        rw [show qlog2 x - 23 = qlog2 x + (-23) by ring,
            zpow_add₀ (by norm_num : (2:ℚ) ≠ 0)]
        norm_num
        ring
      rw [e1]
      exact mul_le_mul_of_nonneg_right hq.1 (by norm_num)
    have h5 : x - x * (1/16777216) = x * (16777215/16777216) := by ring
    linarith

lemma toF32_pos (x : ℚ) (hx : 0 < x) : 0 < toF32 x := by
  have h := toF32_ge x (le_of_lt hx)
  have h2 : (0 : ℚ) < x * (16777215/16777216) := by positivity
  linarith

lemma toF32_exact (n : ℕ) (z : ℤ) (hn : n < 2 ^ 24) :
    toF32 ((n : ℚ) * 2 ^ z) = (n : ℚ) * 2 ^ z := by
  rcases Nat.eq_zero_or_pos n with hn0 | hnp
  · subst hn0
    simp [toF32_of_nonpos]
  · have hnQ : (0 : ℚ) < (n : ℚ) := by exact_mod_cast hnp
    have hx : (0 : ℚ) < (n : ℚ) * 2 ^ z := by positivity
    obtain ⟨hb1, hb2⟩ := nat_log2_bounds n (Nat.pos_iff_ne_zero.mp hnp)
    have hlog_le : Nat.log2 n ≤ 23 := by
      by_contra hcon
      push_neg at hcon
      have h24 : (2 : ℚ) ^ (24 : ℕ) ≤ 2 ^ (Nat.log2 n) :=
        pow_le_pow_right₀ (by norm_num) hcon
      have hnlt : (n : ℚ) < 2 ^ (24 : ℕ) := by exact_mod_cast hn
      linarith
    have hql : qlog2 ((n : ℚ) * 2 ^ z) = (Nat.log2 n : ℤ) + z := by
      apply qlog2_unique _ _ hx
      · have e1 : (2 : ℚ) ^ ((Nat.log2 n : ℤ) + z) = 2 ^ (Nat.log2 n : ℕ) * 2 ^ z := by
          rw [zpow_add₀ (by norm_num : (2:ℚ) ≠ 0), zpow_natCast]
        rw [e1]
        exact mul_le_mul_of_nonneg_right hb1 (by positivity)
      · have e1 : (2 : ℚ) ^ ((Nat.log2 n : ℤ) + z + 1) = 2 ^ (Nat.log2 n + 1 : ℕ) * 2 ^ z := by
          rw [show (Nat.log2 n : ℤ) + z + 1 = ((Nat.log2 n + 1 : ℕ) : ℤ) + z by push_cast; ring,
              zpow_add₀ (by norm_num : (2:ℚ) ≠ 0), zpow_natCast]
        rw [e1]
        exact mul_lt_mul_of_pos_right hb2 (by positivity)
    rw [toF32_eq_of_pos _ hx, hql]
    have hyint : (n : ℚ) * 2 ^ z / 2 ^ ((Nat.log2 n : ℤ) + z - 23) =
        (((n * 2 ^ (23 - Nat.log2 n) : ℕ) : ℤ) : ℚ) := by
      push_cast
      rw [show ((23 - Nat.log2 n : ℕ) : ℕ) = (23 - Nat.log2 n : ℕ) from rfl]
      rw [show ((2 : ℚ) ^ (23 - Nat.log2 n : ℕ)) = 2 ^ ((23 - Nat.log2 n : ℕ) : ℤ) by
        rw [zpow_natCast]]
      rw [show (((23 - Nat.log2 n : ℕ)) : ℤ) = 23 - (Nat.log2 n : ℤ) by omega]
      rw [div_eq_iff (by positivity : ((2:ℚ) ^ ((Nat.log2 n : ℤ) + z - 23)) ≠ 0)]
      rw [mul_assoc, ← zpow_add₀ (by norm_num : (2:ℚ) ≠ 0)]
      rw [show (23 - (Nat.log2 n : ℤ) + ((Nat.log2 n : ℤ) + z - 23)) = z by ring]
    rw [hyint, rne_intCast]
    push_cast
    rw [show ((2 : ℚ) ^ (23 - Nat.log2 n : ℕ)) = 2 ^ ((23 - Nat.log2 n : ℕ) : ℤ) by
      rw [zpow_natCast]]
    rw [show (((23 - Nat.log2 n : ℕ)) : ℤ) = 23 - (Nat.log2 n : ℤ) by omega]
    rw [mul_assoc, ← zpow_add₀ (by norm_num : (2:ℚ) ≠ 0)]
    rw [show (23 - (Nat.log2 n : ℤ) + ((Nat.log2 n : ℤ) + z - 23)) = z by ring]

lemma toF32_natCast_exact (n : ℕ) (hn : n < 2 ^ 24) : toF32 (n : ℚ) = (n : ℚ) := by
  have h := toF32_exact n 0 hn
  simpa using h

/-! ### Properties of `scale_dimension` -/

lemma scale_dimension_result_le (b a c : ℕ) (hc : c ≠ 0) :
    ((scale_dimension b a c : ℕ) : ℚ) ≤
      toF32 (toF32 (toF32 (toF32 (a : ℚ) * toF32 (b : ℚ)) / toF32 (c : ℚ)) + 1/2) := by
  simp only [scale_dimension]
  rw [if_neg hc]
  set s := toF32 (toF32 (toF32 (toF32 (a : ℚ) * toF32 (b : ℚ)) / toF32 (c : ℚ)) + 1/2) with hs
  have hs0 : 0 ≤ s := toF32_nonneg _
  have h1 : (min ⌊s⌋ ((U32_MAX : ℕ) : ℤ)).toNat ≤ ⌊s⌋ := by
    have h2 : 0 ≤ min ⌊s⌋ ((U32_MAX : ℕ) : ℤ) := by
      refine le_min (Int.floor_nonneg.mpr hs0) ?_
      norm_num [U32_MAX]
    omega
  calc ((min ⌊s⌋ ((U32_MAX : ℕ) : ℤ)).toNat : ℚ) ≤ (⌊s⌋ : ℚ) := by exact_mod_cast h1
    _ ≤ s := Int.floor_le s

lemma scale_dimension_le (b a c : ℕ) (hc : 1 ≤ c) :
    ((scale_dimension b a c : ℕ) : ℚ) ≤
      ((a : ℚ) * (b : ℚ) / (c : ℚ) + 1/2) * (16777223/16777216) := by
  have hcne : c ≠ 0 := by omega
  have hcpos : (0 : ℚ) < (c : ℚ) := by exact_mod_cast Nat.pos_of_ne_zero hcne
  have hstart := scale_dimension_result_le b a c hcne
  set u : ℚ := 16777217/16777216 with hu
  set l : ℚ := 16777215/16777216 with hl
  set aQ := toF32 (a : ℚ) with haQ
  set bQ := toF32 (b : ℚ) with hbQ
  set p := toF32 (aQ * bQ) with hpdef
  set cQ := toF32 (c : ℚ) with hcQ
  set q := toF32 (p / cQ) with hqdef
  have ha1 : aQ ≤ (a : ℚ) * u := toF32_le _ (by positivity)
  have ha0 : 0 ≤ aQ := toF32_nonneg _
  have hb1 : bQ ≤ (b : ℚ) * u := toF32_le _ (by positivity)
  have hb0 : 0 ≤ bQ := toF32_nonneg _
  have hp1 : p ≤ (aQ * bQ) * u := toF32_le _ (by positivity)
  have hp0 : 0 ≤ p := toF32_nonneg _
  have hc1 : (c : ℚ) * l ≤ cQ := toF32_ge _ (le_of_lt hcpos)
  have hcQpos : 0 < cQ := toF32_pos _ hcpos
  have hclpos : (0 : ℚ) < (c : ℚ) * l := by positivity
  have hab : aQ * bQ ≤ ((a : ℚ) * u) * ((b : ℚ) * u) :=
    mul_le_mul ha1 hb1 hb0 (by positivity)
  have hp2 : p ≤ ((a : ℚ) * u) * ((b : ℚ) * u) * u :=
    le_trans hp1 (mul_le_mul_of_nonneg_right hab (by norm_num [hu]))
  have hdiv : p / cQ ≤ (((a : ℚ) * u) * ((b : ℚ) * u) * u) / ((c : ℚ) * l) :=
    div_le_div (by positivity) hp2 hclpos hc1
  have hq1 : q ≤ (p / cQ) * u := toF32_le _ (by positivity)
  have hq2 : q ≤ ((((a : ℚ) * u) * ((b : ℚ) * u) * u) / ((c : ℚ) * l)) * u :=
    le_trans hq1 (mul_le_mul_of_nonneg_right hdiv (by norm_num [hu]))
  have hq0 : 0 ≤ q := toF32_nonneg _
  have hs1 : toF32 (q + 1/2) ≤ (q + 1/2) * u := toF32_le _ (by positivity)
  have hs2 : toF32 (q + 1/2) ≤
      (((((a : ℚ) * u) * ((b : ℚ) * u) * u) / ((c : ℚ) * l)) * u + 1/2) * u := by
    refine le_trans hs1 (mul_le_mul_of_nonneg_right ?_ (by norm_num [hu]))
    linarith
  have hkey : (((((a : ℚ) * u) * ((b : ℚ) * u) * u) / ((c : ℚ) * l)) * u + 1/2) * u =
      ((a : ℚ) * (b : ℚ) / (c : ℚ)) * (u ^ 5 / l) + u / 2 := by
    field_simp
    ring
  have hconst : (u ^ 5 / l : ℚ) ≤ 16777223/16777216 := by
    rw [hu, hl]
    norm_num
  have hconst2 : (u / 2 : ℚ) ≤ (16777223/16777216) / 2 := by
    rw [hu]
    norm_num
  have habc0 : (0 : ℚ) ≤ (a : ℚ) * (b : ℚ) / (c : ℚ) := by positivity
  have hmul : ((a : ℚ) * (b : ℚ) / (c : ℚ)) * (u ^ 5 / l) ≤
      ((a : ℚ) * (b : ℚ) / (c : ℚ)) * (16777223/16777216) :=
    mul_le_mul_of_nonneg_left hconst habc0
  have hfinal : (((a : ℚ) * (b : ℚ) / (c : ℚ)) + 1/2) * (16777223/16777216) =
      ((a : ℚ) * (b : ℚ) / (c : ℚ)) * (16777223/16777216) + (16777223/16777216) / 2 := by
    ring
  rw [hfinal]
  calc ((scale_dimension b a c : ℕ) : ℚ) ≤ toF32 (q + 1/2) := hstart
    _ ≤ (((((a : ℚ) * u) * ((b : ℚ) * u) * u) / ((c : ℚ) * l)) * u + 1/2) * u := hs2
    _ = ((a : ℚ) * (b : ℚ) / (c : ℚ)) * (u ^ 5 / l) + u / 2 := hkey
    _ ≤ ((a : ℚ) * (b : ℚ) / (c : ℚ)) * (16777223/16777216) + (16777223/16777216) / 2 := by
        linarith

lemma toF32_half : toF32 (1/2 : ℚ) = 1/2 := by
  simpa using toF32_exact 1 (-1) (by norm_num)

lemma floor_add_half (k : ℕ) : ⌊((k : ℕ) : ℚ) + 1/2⌋ = ((k : ℕ) : ℤ) := by
  rw [Int.floor_eq_iff]
  constructor
  · push_cast
    linarith
  · push_cast
    linarith

lemma scale_dimension_exact (b a c : ℕ) (hc : 0 < c) (hdvd : c ∣ a * b)
    (hab : a * b < 2 ^ 24) (hq : a * b / c < 2 ^ 23) :
    scale_dimension b a c = a * b / c := by
  have hcne : c ≠ 0 := hc.ne'
  simp only [scale_dimension]
  rw [if_neg hcne]
  rcases Nat.eq_zero_or_pos (a * b) with h0 | hpos1
  · have eprod : toF32 (a : ℚ) * toF32 (b : ℚ) = 0 := by
      rcases Nat.mul_eq_zero.mp h0 with h | h
      · rw [h]
        simp [toF32_of_nonpos]
      · rw [h]
        simp [toF32_of_nonpos]
    rw [eprod, toF32_of_nonpos 0 le_rfl, zero_div, toF32_of_nonpos 0 le_rfl, zero_add,
        toF32_half]
    rw [show ⌊(1/2 : ℚ)⌋ = 0 by
      rw [Int.floor_eq_iff]
      norm_num]
    rw [h0, Nat.zero_div]
    rfl
  · have hb1 : 1 ≤ b := by
      by_contra hcon
      push_neg at hcon
      have hb0 : b = 0 := by omega
      rw [hb0, Nat.mul_zero] at hpos1
      exact absurd hpos1 (lt_irrefl 0)
    have ha1 : 1 ≤ a := by
      by_contra hcon
      push_neg at hcon
      have ha0 : a = 0 := by omega
      rw [ha0, Nat.zero_mul] at hpos1
      exact absurd hpos1 (lt_irrefl 0)
    have haub : a < 2 ^ 24 := lt_of_le_of_lt (Nat.le_mul_of_pos_right a hb1) hab
    have hbub : b < 2 ^ 24 := lt_of_le_of_lt (Nat.le_mul_of_pos_left b ha1) hab
    have hcub : c < 2 ^ 24 := lt_of_le_of_lt (Nat.le_of_dvd hpos1 hdvd) hab
    have ea : toF32 (a : ℚ) = (a : ℚ) := toF32_natCast_exact a haub
    have eb : toF32 (b : ℚ) = (b : ℚ) := toF32_natCast_exact b hbub
    have ec : toF32 (c : ℚ) = (c : ℚ) := toF32_natCast_exact c hcub
    rw [ea, eb, ec]
    rw [show (a : ℚ) * (b : ℚ) = ((a * b : ℕ) : ℚ) by push_cast; ring]
    rw [toF32_natCast_exact (a * b) hab]
    rw [show ((a * b : ℕ) : ℚ) / (c : ℚ) = ((a * b / c : ℕ) : ℚ) from
      (Nat.cast_div hdvd (by exact_mod_cast hcne : (c : ℚ) ≠ 0)).symm]
    rw [toF32_natCast_exact (a * b / c) (lt_trans hq (by norm_num))]
    have es : toF32 (((a * b / c : ℕ) : ℚ) + 1/2) = ((a * b / c : ℕ) : ℚ) + 1/2 := by
      have h21 : 2 * (a * b / c) + 1 < 2 ^ 24 := by omega
      have h := toF32_exact (2 * (a * b / c) + 1) (-1) h21
      have e3 : (((2 * (a * b / c) + 1 : ℕ)) : ℚ) * (2 : ℚ) ^ (-1 : ℤ) =
          ((a * b / c : ℕ) : ℚ) + 1/2 := by
        push_cast
        rw [show ((2 : ℚ) ^ (-1 : ℤ)) = 1/2 by norm_num]
        ring
      rw [e3] at h
      exact h
    rw [es, floor_add_half]
    rw [min_eq_left (by
      have : a * b / c ≤ 4294967295 := by omega
      exact_mod_cast Nat.cast_le.mpr this)]
    exact Int.toNat_natCast _

lemma ratRound_of_dvd (a b c : ℕ) (hc : 0 < c) (hdvd : c ∣ a * b) :
    ratRound ((a : ℚ) * (b : ℚ) / (c : ℚ)) = a * b / c := by
  unfold ratRound
  rw [show (a : ℚ) * (b : ℚ) = ((a * b : ℕ) : ℚ) by push_cast; ring]
  rw [show ((a * b : ℕ) : ℚ) / (c : ℚ) = ((a * b / c : ℕ) : ℚ) from
    (Nat.cast_div hdvd (by exact_mod_cast hc.ne' : (c : ℚ) ≠ 0)).symm]
  rw [floor_add_half]
  exact Int.toNat_natCast _

/-! ### The fit-to-surface bound -/

lemma fit_helper (W Hpx t1 t2 : ℚ) (hW0 : 0 ≤ W) (hW : W ≤ 65535) (hH0 : 0 ≤ Hpx)
    (ht2 : 0 ≤ t2) (hmul : t1 * t2 = W * Hpx)
    (hg : (W + 1) ≤ (t1 + 1/2) * (16777223/16777216)) :
    (t2 + 1/2) * (16777223/16777216) < Hpx + 1 := by
  have ht1 : 0 < t1 := by linarith
  have hL1 : (W + 1) * (16777216/16777223) - 1/2 ≤ t1 := by linarith
  have hseed1 : Hpx * ((W + 1) * (16777216/16777223) - 1/2) ≤ Hpx * t1 :=
    mul_le_mul_of_nonneg_left hL1 hH0
  have hseed2 : W * Hpx ≤ 65535 * Hpx := mul_le_mul_of_nonneg_right hW hH0
  have hkey : W * Hpx * (16777223/16777216) + t1 * (16777223/16777216) / 2 <
      (Hpx + 1) * t1 := by nlinarith [hseed1, hseed2, ht1, hH0]
  have hexp : (t2 + 1/2) * (16777223/16777216) * t1 =
      W * Hpx * (16777223/16777216) + t1 * (16777223/16777216) / 2 := by
    have : t2 * t1 = W * Hpx := by linarith [hmul, mul_comm t1 t2]
    nlinarith [this]
  have hlt : (t2 + 1/2) * (16777223/16777216) * t1 < (Hpx + 1) * t1 := by
    rw [hexp]
    exact hkey
  exact (mul_lt_mul_right ht1).mp hlt

lemma scale_back_le (ow oh W Hpx : ℕ) (how : 0 < ow) (hoh : 0 < oh)
    (hW : W ≤ 65535) (hguard : W < scale_dimension Hpx ow oh) :
    scale_dimension W oh ow ≤ Hpx := by
  have hg1 : ((W : ℚ) + 1) ≤ ((ow : ℚ) * (Hpx : ℚ) / (oh : ℚ) + 1/2) * (16777223/16777216) := by
    have h1 : W + 1 ≤ scale_dimension Hpx ow oh := hguard
    have h2 : ((W + 1 : ℕ) : ℚ) ≤ ((scale_dimension Hpx ow oh : ℕ) : ℚ) := by
      exact_mod_cast h1
    have h3 := scale_dimension_le Hpx ow oh hoh
    push_cast at h2
    linarith
  have hr2 := scale_dimension_le W oh ow how
  have hmul : ((ow : ℚ) * (Hpx : ℚ) / (oh : ℚ)) * ((oh : ℚ) * (W : ℚ) / (ow : ℚ)) =
      (W : ℚ) * (Hpx : ℚ) := by
    have howQ : (ow : ℚ) ≠ 0 := by positivity
    have hohQ : (oh : ℚ) ≠ 0 := by positivity
    field_simp
    ring
  have hh := fit_helper (W : ℚ) (Hpx : ℚ) ((ow : ℚ) * (Hpx : ℚ) / (oh : ℚ))
    ((oh : ℚ) * (W : ℚ) / (ow : ℚ)) (by positivity) (by exact_mod_cast hW)
    (by positivity) (by positivity) hmul hg1
  have hfin : ((scale_dimension W oh ow : ℕ) : ℚ) < (Hpx : ℚ) + 1 := lt_of_le_of_lt hr2 hh
  have hlt : scale_dimension W oh ow < Hpx + 1 := by exact_mod_cast hfin
  omega

lemma target_width_budget_le (mw : Option ℕ) (tw : ℕ) : target_width_budget mw tw ≤ tw := by
  rcases mw with _ | m
  · simp [target_width_budget]
  · simp only [target_width_budget]
    exact min_le_right m tw

lemma fit_to_size_eq (ow oh tw th : ℕ) (hth : th ≤ 65535) (mw mh : Option ℕ) :
    fit_to_size ow oh tw th mw mh =
      (if scale_dimension (target_height_budget mh th) ow oh ≤ target_width_budget mw tw
       then (scale_dimension (target_height_budget mh th) ow oh, target_height_budget mh th)
       else (target_width_budget mw tw, scale_dimension (target_width_budget mw tw) oh ow)) := by
  rcases mh with _ | n
  · simp only [fit_to_size, target_width_budget, target_height_budget]
    rw [Nat.mod_eq_of_lt (show 2 * th < U32_MOD by simp only [U32_MOD]; omega)]
  · simp only [fit_to_size, target_width_budget, target_height_budget]
    have hmin : min n th ≤ th := min_le_right n th
    rw [Nat.mod_eq_of_lt (show 2 * min n th < U32_MOD by simp only [U32_MOD]; omega)]

lemma fit_to_size_bounds (ow oh tw th : ℕ) (how : 0 < ow) (hoh : 0 < oh)
    (htw : tw ≤ 65535) (hth : th ≤ 65535) (mw mh : Option ℕ) :
    (fit_to_size ow oh tw th mw mh).1 ≤ target_width_budget mw tw ∧
    (fit_to_size ow oh tw th mw mh).2 ≤ target_height_budget mh th := by
  have hWle : target_width_budget mw tw ≤ 65535 := le_trans (target_width_budget_le mw tw) htw
  rw [fit_to_size_eq ow oh tw th hth mw mh]
  split
  next hsp => exact ⟨hsp, le_rfl⟩
  next hsp =>
    refine ⟨le_rfl, ?_⟩
    exact scale_back_le ow oh _ _ how hoh hWle (by omega)

/-! ### Concrete evaluations of the f32 model -/

lemma toF32_big_ratio : toF32 ((12582913 : ℚ)/8388609) = 3/2 := by
  have hpos : (0 : ℚ) < (12582913 : ℚ)/8388609 := by norm_num
  have hql : qlog2 ((12582913 : ℚ)/8388609) = 0 :=
    qlog2_unique _ 0 hpos (by norm_num) (by norm_num)
  rw [toF32_eq_of_pos _ hpos, hql]
  have hy : (12582913 : ℚ)/8388609 / 2 ^ ((0 : ℤ) - 23) = 105553124655104/8388609 := by
    norm_num
  rw [show ((0 : ℤ) - 23) = (0 : ℤ) - 23 from rfl, hy]
  have hrne : rne ((105553124655104 : ℚ)/8388609) = 12582912 := by
    have h := rne_eq_of_gt_half ((105553124655104 : ℚ)/8388609) 12582911
      (by norm_num) (by norm_num)
    simpa using h
  rw [hrne]
  norm_num

lemma scale_dimension_cex : scale_dimension 1 12582913 8388609 = 2 := by
  simp only [scale_dimension]
  rw [if_neg (by norm_num : (8388609 : ℕ) ≠ 0)]
  rw [toF32_natCast_exact 12582913 (by norm_num), toF32_natCast_exact 1 (by norm_num),
      toF32_natCast_exact 8388609 (by norm_num)]
  rw [show ((12582913 : ℕ) : ℚ) * ((1 : ℕ) : ℚ) = ((12582913 : ℕ) : ℚ) by push_cast; ring]
  rw [toF32_natCast_exact 12582913 (by norm_num)]
  rw [show ((12582913 : ℕ) : ℚ) / ((8388609 : ℕ) : ℚ) = (12582913 : ℚ)/8388609 by push_cast; ring]
  rw [toF32_big_ratio]
  rw [show (3/2 + 1/2 : ℚ) = ((2 : ℕ) : ℚ) by norm_num]
  rw [toF32_natCast_exact 2 (by norm_num)]
  rw [Int.floor_natCast]
  norm_num [U32_MAX]
  rfl

/-! ### Concrete worlds and arguments used in counterexamples and witnesses -/

/-- A pixel buffer of a 5-by-7 image, used as concrete decoder output. -/
def pb5 : PixelBuffer := { width := 5, height := 7, pixel := fun _ _ => (0, 0, 0, 0) }

/-- A world whose raster decoder succeeds with `pb5` and whose terminal size
is unavailable. -/
def world_raster_ok : World :=
  { svgParse := fun _ => none
    svgRender := fun _ => none
    imageOpen := fun _ => .ok pb5
    terminalSize := none }

/-- A world in which every SVG parses but rasterizes to no output, and the
raster decoder rejects the file. -/
def world_svg_render_none : World :=
  { svgParse := fun _ => some (0 : SvgDoc)
    svgRender := fun _ => none
    imageOpen := fun _ => .error "raster-error"
    terminalSize := none }

/-- Arguments: `--width 0 --height 1 img.png`. -/
def args_zero_width : Args :=
  { flag_width := some 0
    flag_height := some 1
    flag_max_width := none
    flag_max_height := none
    flag_true_colour := false
    flag_true_color := false
    flag_filter := none
    arg_file := "img.png" }

/-- Arguments: `img.png` alone (no dimensions, no filter). -/
def args_plain : Args :=
  { flag_width := none
    flag_height := none
    flag_max_width := none
    flag_max_height := none
    flag_true_colour := false
    flag_true_color := false
    flag_filter := none
    arg_file := "img.png" }

/-- Arguments: `--filter blur img.png`. -/
def args_blur : Args :=
  { flag_width := none
    flag_height := none
    flag_max_width := none
    flag_max_height := none
    flag_true_colour := false
    flag_true_color := false
    flag_filter := some "blur"
    arg_file := "img.png" }

/-- The render call produced by `world_raster_ok` on `args_zero_width`. -/
def rc_zero_width : RenderCall :=
  { buffer := pb5
    true_colour := false
    width := 0
    height := 2
    filter := FilterType.Gaussian }

/-! ### The claims -/

/-- C2 (amended): with both dimensions explicit the resolved size is
`(W, 2 * H mod 2^32)`; thus it equals `(W, 2 * H)` exactly when `H < 2^31`,
and it never consults the source dimensions, the max caps or the surface
(the result is the same for all their values, as expressed by the universal
quantification). -/
theorem claim_C2_amended (W H ow oh : ℕ) (mw mh : Option ℕ) (s : Option (ℕ × ℕ))
    (hH : H < 2 ^ 31) :
    determine_size (some W) (some H) mw mh ow oh s = some (W, 2 * H) := by
  simp only [determine_size]
  rw [show H * 2 % U32_MOD = 2 * H by
    rw [show U32_MOD = 4294967296 from rfl]
    omega]

/-- C2 (counterexample): at `H = 2^31` the u32 multiplication `h * 2` wraps to
0, so the resolved size is `(1, 0)`, not `(1, 2 * 2^31)` as the claim states
for every pair of explicit dimensions. -/
theorem claim_C2_counterexample :
    determine_size (some 1) (some 2147483648) none none 1 1 none = some (1, 0) ∧
    some ((1 : ℕ), (0 : ℕ)) ≠ some ((1 : ℕ), 2 * 2147483648) := by
  constructor
  · simp only [determine_size]
    rw [show 2147483648 * 2 % U32_MOD = 0 by rw [show U32_MOD = 4294967296 from rfl]]
  · intro h
    simp at h

/-- C2 (witness): the spec's own scenario, explicit `width=40, height=10`
resolving to `(40, 20)`. -/
theorem claim_C2_witness :
    determine_size (some 40) (some 10) none none 1600 900 none = some (40, 20) :=
  claim_C2_amended 40 10 1600 900 none none none (by norm_num)

/-- C6 (amended): `scale_dimension` computes `floor(x + 0.5)` where `x` is the
f32 (round-to-nearest-even) evaluation of `orig_this * other / orig_other`,
not the exact rational ratio.  The claimed exact round-half-up formula holds
whenever the computation is exactly representable in f32: when `orig_other`
divides `orig_this * other`, the product is below `2^24` and the quotient
below `2^23`. -/
theorem claim_C6_amended (other orig_this orig_other : ℕ) (hc : 0 < orig_other)
    (hdvd : orig_other ∣ orig_this * other) (hab : orig_this * other < 2 ^ 24)
    (hq : orig_this * other / orig_other < 2 ^ 23) :
    scale_dimension other orig_this orig_other =
      ratRound ((orig_this : ℚ) * (other : ℚ) / (orig_other : ℚ)) := by
  rw [scale_dimension_exact other orig_this orig_other hc hdvd hab hq,
      ratRound_of_dvd orig_this other orig_other hc hdvd]

/-- C6 (counterexample): at `other = 1`, `orig_this = 12582913`,
`orig_other = 8388609` the exact ratio is `1.49999994...`, whose round-half-up
is 1; but the f32 division rounds the quotient up to exactly `1.5`, after
which adding `0.5` gives `2.0`, so the code returns 2.  The claimed
`floor(exact + 0.5)` formula therefore does not describe the function. -/
theorem claim_C6_counterexample :
    scale_dimension 1 12582913 8388609 = 2 ∧
    ratRound ((12582913 : ℚ) * (1 : ℚ) / (8388609 : ℚ)) = 1 ∧
    scale_dimension 1 12582913 8388609 ≠
      ratRound ((12582913 : ℚ) * (1 : ℚ) / (8388609 : ℚ)) := by
  have h2 : ratRound ((12582913 : ℚ) * (1 : ℚ) / (8388609 : ℚ)) = 1 := by
    have hfl : ⌊(12582913 : ℚ) * (1 : ℚ) / (8388609 : ℚ) + 1/2⌋ = 1 := by
      apply Int.floor_eq_iff.mpr
      constructor <;> norm_num
    rw [ratRound, hfl]
    rfl
  exact ⟨scale_dimension_cex, h2, by rw [scale_dimension_cex, h2]; norm_num⟩

/-- C6 (witness): an exactly representable instance,
`scale_dimension 4 3 2 = round(3 * 4 / 2) = 6`. -/
theorem claim_C6_witness :
    scale_dimension 4 3 2 = ratRound (((3 : ℕ) : ℚ) * ((4 : ℕ) : ℚ) / ((2 : ℕ) : ℚ)) :=
  claim_C6_amended 4 3 2 (by norm_num) (by norm_num) (by norm_num) (by norm_num)

/-- C1 (amended): with exactly one explicit dimension, `resolve` derives the
other dimension with `scale_dimension`, which rounds in f32 rather than on
the exact rational ratio, and the explicit height is first doubled in u32
arithmetic.  The claimed exact formulas
`(width, round(orig_height * width / orig_width))` and
`(round(orig_width * h2 / orig_height), h2)` hold whenever the scaled
products are exactly representable in f32 (divisor divides the product,
product below `2^24`, quotient below `2^23`) and, for the height case,
`height < 2^31` so that `h2 = 2 * height` does not wrap. -/
theorem claim_C1_amended :
    (∀ w ow oh : ℕ, ∀ mw mh : Option ℕ, ∀ s : Option (ℕ × ℕ),
      0 < ow → ow ∣ oh * w → oh * w < 2 ^ 24 → oh * w / ow < 2 ^ 23 →
      determine_size (some w) none mw mh ow oh s =
        some (w, ratRound ((oh : ℚ) * (w : ℚ) / (ow : ℚ)))) ∧
    (∀ h ow oh : ℕ, ∀ mw mh : Option ℕ, ∀ s : Option (ℕ × ℕ),
      0 < oh → h < 2 ^ 31 → oh ∣ ow * (2 * h) → ow * (2 * h) < 2 ^ 24 →
      ow * (2 * h) / oh < 2 ^ 23 →
      determine_size none (some h) mw mh ow oh s =
        some (ratRound ((ow : ℚ) * ((2 * h : ℕ) : ℚ) / (oh : ℚ)), 2 * h)) := by
  constructor
  · intro w ow oh mw mh s how hdvd hab hq
    simp only [determine_size]
    rw [scale_dimension_exact w oh ow how hdvd hab hq, ratRound_of_dvd oh w ow how hdvd]
  · intro h ow oh mw mh s hoh hlt hdvd hab hq
    simp only [determine_size]
    rw [show h * 2 % U32_MOD = 2 * h by
      rw [show U32_MOD = 4294967296 from rfl]
      omega]
    rw [scale_dimension_exact (2 * h) ow oh hoh hdvd hab hq,
        ratRound_of_dvd ow (2 * h) oh hoh hdvd]

/-- C1 (counterexample): for a `8388609 x 12582913` image with `--width 1`,
the aspect-preserving height per the claim is
`round(12582913 * 1 / 8388609) = round(1.49999994) = 1`, but the code's f32
arithmetic returns 2; and for a `1 x 1` image with `--height 2^31` the doubled
height wraps to 0, so the result is `(0, 0)` rather than the claimed
`(round(2^32), 2^32)`. -/
theorem claim_C1_counterexample :
    determine_size (some 1) none none none 8388609 12582913 none = some (1, 2) ∧
    ratRound ((12582913 : ℚ) * ((1 : ℕ) : ℚ) / ((8388609 : ℕ) : ℚ)) = 1 ∧
    determine_size (some 1) none none none 8388609 12582913 none ≠
      some (1, ratRound ((12582913 : ℚ) * ((1 : ℕ) : ℚ) / ((8388609 : ℕ) : ℚ))) ∧
    determine_size none (some 2147483648) none none 1 1 none = some (0, 0) := by
  have h1 : determine_size (some 1) none none none 8388609 12582913 none = some (1, 2) := by
    simp only [determine_size]
    rw [scale_dimension_cex]
  have h2 : ratRound ((12582913 : ℚ) * ((1 : ℕ) : ℚ) / ((8388609 : ℕ) : ℚ)) = 1 := by
    have hfl : ⌊(12582913 : ℚ) * ((1 : ℕ) : ℚ) / ((8388609 : ℕ) : ℚ) + 1/2⌋ = 1 := by
      apply Int.floor_eq_iff.mpr
      constructor <;> norm_num
    rw [ratRound, hfl]
    rfl
  refine ⟨h1, h2, ?_, ?_⟩
  · rw [h1, h2]
    simp
  · simp only [determine_size]
    rw [show 2147483648 * 2 % U32_MOD = 0 by rw [show U32_MOD = 4294967296 from rfl]]
    rw [show scale_dimension 0 1 1 = 0 by
      simpa using scale_dimension_exact 0 1 1 one_pos (one_dvd _) (by norm_num) (by norm_num)]

/-- C1 (witness): an exactly representable width-explicit instance: a
`2 x 3` image with `--width 4` resolves to `(4, round(3 * 4 / 2)) = (4, 6)`. -/
theorem claim_C1_witness :
    determine_size (some 4) none none none 2 3 none =
      some (4, ratRound (((3 : ℕ) : ℚ) * ((4 : ℕ) : ℚ) / ((2 : ℕ) : ℚ))) :=
  claim_C1_amended.1 4 2 3 none none none (by norm_num) (by norm_num) (by norm_num)
    (by norm_num)

/-- C3: in fit-to-surface mode (with the terminal's u16 column and row counts)
the resolved size never exceeds the budgets obtained after applying the max
caps: `w ≤ target_width` and `h ≤ target_height_px`.  This holds even though
the comparisons are made on f32-rounded values. -/
theorem claim_C3_fit_within_budgets (ow oh cols usable : ℕ) (mw mh : Option ℕ)
    (how : 0 < ow) (hoh : 0 < oh) (hcols0 : 0 < cols) (hcols : cols ≤ 65535)
    (husable0 : 0 < usable) (husable : usable ≤ 65535) :
    (fit_to_size ow oh cols usable mw mh).1 ≤ target_width_budget mw cols ∧
    (fit_to_size ow oh cols usable mw mh).2 ≤ target_height_budget mh usable :=
  fit_to_size_bounds ow oh cols usable how hoh hcols husable mw mh

/-- C3 (witness): the spec's scenario, a `1600 x 900` image on an `80 x 25`
terminal (24 usable rows), stays within the `80`-column and `48`-pixel
budgets. -/
theorem claim_C3_witness :
    (fit_to_size 1600 900 80 24 none none).1 ≤ target_width_budget none 80 ∧
    (fit_to_size 1600 900 80 24 none none).2 ≤ target_height_budget none 24 :=
  claim_C3_fit_within_budgets 1600 900 80 24 none none (by norm_num) (by norm_num)
    (by norm_num) (by norm_num) (by norm_num) (by norm_num)

/-- C4: in fit-to-surface mode one surface row is reserved
(`usable_rows = rows - 1` whenever `rows ≥ 1`), and the budgets are exactly
the claimed ones: giving `max_width = m` behaves like clamping the column
budget to `min m columns`, and giving `max_height = m` behaves like clamping
the usable-row budget to `min m usable_rows` (the pixel-height budget being
twice the row budget). -/
theorem claim_C4_surface_budgets (ow oh cols rows : ℕ) (mw mh : Option ℕ)
    (h1 : 1 ≤ rows) (h2 : rows ≤ 65535) :
    determine_size none none mw mh ow oh (some (cols, rows)) =
      some (fit_to_size ow oh cols (rows - 1) mw mh) ∧
    (∀ m, fit_to_size ow oh cols (rows - 1) (some m) mh =
      fit_to_size ow oh (min m cols) (rows - 1) none mh) ∧
    (∀ m, fit_to_size ow oh cols (rows - 1) mw (some m) =
      fit_to_size ow oh cols (min m (rows - 1)) mw none) := by
  refine ⟨?_, fun m => rfl, fun m => rfl⟩
  simp only [determine_size]
  rw [show (rows + 65535) % 65536 = rows - 1 by omega]

/-- C4 (witness): on an `80 x 25` surface with no caps, resolution uses 24
usable rows. -/
theorem claim_C4_witness :
    determine_size none none none none 1600 900 (some (80, 25)) =
      some (fit_to_size 1600 900 80 24 none none) :=
  (claim_C4_surface_budgets 1600 900 80 25 none none (by norm_num) (by norm_num)).1

/-- C10: when the surface reports `rows = 0` (and no explicit dimensions are
given), the u16 computation `rows - 1` wraps around to 65535 instead of being
rejected: resolution still returns a size, computed against 65535 usable
rows. -/
theorem claim_C10_zero_rows (ow oh cols : ℕ) (mw mh : Option ℕ) :
    determine_size none none mw mh ow oh (some (cols, 0)) =
      some (fit_to_size ow oh cols 65535 mw mh) ∧
    (determine_size none none mw mh ow oh (some (cols, 0))).isSome = true := by
  have h : determine_size none none mw mh ow oh (some (cols, 0)) =
      some (fit_to_size ow oh cols 65535 mw mh) := by
    simp only [determine_size]
  exact ⟨h, by rw [h]; rfl⟩

/-! ### Inversion of a successful `main_flow` run -/

lemma main_flow_ok_inv (w : World) (args : Args) (call : RenderCall)
    (h : main_flow w args = .ok call) :
    get_image w args.arg_file = .ok call.buffer ∧
    (args.flag_filter = none → call.filter = FilterType.Gaussian) := by
  simp only [main_flow] at h
  rcases hfil : args.flag_filter with _ | f
  · rcases hgi : get_image w args.arg_file with e | img
    · simp only [hfil, hgi] at h
      exact Except.noConfusion h
    · rcases hds : determine_size args.flag_width args.flag_height args.flag_max_width
          args.flag_max_height img.width img.height w.terminalSize with _ | pr
      · simp only [hfil, hgi, hds] at h
        exact Except.noConfusion h
      · rcases pr with ⟨wd, ht⟩
        simp only [hfil, hgi, hds, Except.ok.injEq] at h
        constructor
        · rw [← h]
        · intro _
          rw [← h]
  · rcases hgf : get_filter f with _ | flt
    · simp only [hfil, hgf] at h
      exact Except.noConfusion h
    · rcases hgi : get_image w args.arg_file with e | img
      · simp only [hfil, hgf, hgi] at h
        exact Except.noConfusion h
      · rcases hds : determine_size args.flag_width args.flag_height args.flag_max_width
            args.flag_max_height img.width img.height w.terminalSize with _ | pr
        · simp only [hfil, hgf, hgi, hds] at h
          exact Except.noConfusion h
        · rcases pr with ⟨wd, ht⟩
          simp only [hfil, hgf, hgi, hds, Except.ok.injEq] at h
          constructor
          · rw [← h]
          · intro hcon
            exact Option.noConfusion hcon

/-- C5 (amended): when a `.svg` path parses but rasterization yields no image,
`get_image` does not fail with the vector error: it falls through to the
raster decode path (`image::open`) on the same file, and the outcome is
whatever that path produces (for a genuine SVG, the raster decoder's error). -/
theorem claim_C5_amended (w : World) (path : String) (doc : SvgDoc)
    (h1 : ends_with path ".svg" = true) (h2 : w.svgParse path = some doc)
    (h3 : w.svgRender doc = none) :
    get_image w path = image_open w path := by
  simp only [get_image, h1, h2, h3]
  rfl

/-- C5 (counterexample): in a world where `img.svg` parses but rasterizes to
no output and the raster decoder rejects the file, acquisition fails with the
raster error (`ImageError "raster-error"`), not with the claimed
`VectorDecodeFailure` (`SvgError`), showing the fall-back to the other decode
path. -/
theorem claim_C5_counterexample :
    get_image world_svg_render_none "img.svg" = .error (.ImageError "raster-error") ∧
    get_image world_svg_render_none "img.svg" ≠
      .error (.SvgError "Failed to load svg") := by
  have h : get_image world_svg_render_none "img.svg" =
      .error (.ImageError "raster-error") := rfl
  refine ⟨h, ?_⟩
  rw [h]
  simp

/-- C5 (witness): the amended fall-through equation at the concrete world. -/
theorem claim_C5_witness :
    get_image world_svg_render_none "img.svg" =
      image_open world_svg_render_none "img.svg" :=
  claim_C5_amended world_svg_render_none "img.svg" (0 : SvgDoc) rfl rfl rfl

/-- C7: when neither explicit dimension is given and the surface size query
returns `None`, resolution produces no dimensions (`determine_size` is `none`,
and `main` terminates with the no-surface exit, whose status is 1); and the
surface is consulted only in this neither-explicit case — with an explicit
width or height the result is identical for every surface value and always
succeeds. -/
theorem claim_C7_no_surface :
    (∀ mw mh : Option ℕ, ∀ ow oh : ℕ,
      determine_size none none mw mh ow oh none = none) ∧
    (∀ w : ℕ, ∀ fh mw mh : Option ℕ, ∀ ow oh : ℕ, ∀ s s' : Option (ℕ × ℕ),
      determine_size (some w) fh mw mh ow oh s =
        determine_size (some w) fh mw mh ow oh s' ∧
      (determine_size (some w) fh mw mh ow oh s).isSome = true) ∧
    (∀ h : ℕ, ∀ mw mh : Option ℕ, ∀ ow oh : ℕ, ∀ s s' : Option (ℕ × ℕ),
      determine_size none (some h) mw mh ow oh s =
        determine_size none (some h) mw mh ow oh s' ∧
      (determine_size none (some h) mw mh ow oh s).isSome = true) ∧
    (∀ w : World, ∀ args : Args, ∀ img : PixelBuffer,
      args.flag_filter = none → args.flag_width = none → args.flag_height = none →
      w.terminalSize = none → get_image w args.arg_file = .ok img →
      main_flow w args = .error .noSurface ∧ exit_code .noSurface = 1) := by
  refine ⟨fun mw mh ow oh => rfl, ?_, ?_, ?_⟩
  · intro w fh mw mh ow oh s s'
    rcases fh with _ | h
    · exact ⟨rfl, rfl⟩
    · exact ⟨rfl, rfl⟩
  · intro h mw mh ow oh s s'
    exact ⟨rfl, rfl⟩
  · intro w args img hfil hfw hfh hts hgi
    refine ⟨?_, rfl⟩
    simp only [main_flow, hfil, hgi, hfw, hfh, hts]
    rfl

/-- C7 (witness): a concrete run with no explicit dimensions, a decodable
image and an unavailable surface terminates with the no-surface exit and
status 1. -/
theorem claim_C7_witness :
    main_flow world_raster_ok args_plain = Except.error ExitReason.noSurface ∧
    exit_code ExitReason.noSurface = 1 :=
  claim_C7_no_surface.2.2.2 world_raster_ok args_plain pb5 rfl rfl rfl rfl rfl

/-- C8: with no `--filter` flag the Gaussian kernel is used; each of the five
recognized names maps to its kernel; any other name resolves to no kernel,
and `main` then terminates with the unknown-filter exit (status -1) without
consulting the world at all (the result is the same in every world, i.e.
before any file I/O or decode work). -/
theorem claim_C8_filter :
    (∀ w : World, ∀ args : Args, ∀ call : RenderCall, args.flag_filter = none →
      main_flow w args = .ok call → call.filter = FilterType.Gaussian) ∧
    (get_filter "nearest" = some FilterType.Nearest ∧
     get_filter "triangle" = some FilterType.Triangle ∧
     get_filter "catmullrom" = some FilterType.CatmullRom ∧
     get_filter "gaussian" = some FilterType.Gaussian ∧
     get_filter "lanczos3" = some FilterType.Lanczos3) ∧
    (∀ s : String, s ≠ "nearest" → s ≠ "triangle" → s ≠ "catmullrom" →
      s ≠ "gaussian" → s ≠ "lanczos3" → get_filter s = none) ∧
    (∀ w w' : World, ∀ args : Args, ∀ f : String, args.flag_filter = some f →
      get_filter f = none →
      main_flow w args = .error (.unknownFilter f) ∧
      main_flow w args = main_flow w' args ∧
      exit_code (.unknownFilter f) = -1) := by
  refine ⟨?_, ⟨rfl, rfl, rfl, rfl, rfl⟩, ?_, ?_⟩
  · intro w args call hfil h
    exact (main_flow_ok_inv w args call h).2 hfil
  · intro s h1 h2 h3 h4 h5
    simp only [get_filter, if_neg h1, if_neg h2, if_neg h3, if_neg h4, if_neg h5]
  · intro w w' args f h1 h2
    refine ⟨?_, ?_, rfl⟩
    · simp only [main_flow, h1, h2]
    · simp only [main_flow, h1, h2]

/-- C8 (witness): the spec's scenario — the unknown filter name `"blur"`
terminates with the unknown-filter exit in every world (hence before any file
I/O), and a run without a filter flag that reaches the renderer uses
Gaussian. -/
theorem claim_C8_witness :
    (main_flow world_raster_ok args_blur = .error (.unknownFilter "blur") ∧
     main_flow world_raster_ok args_blur = main_flow world_svg_render_none args_blur ∧
     exit_code (.unknownFilter "blur") = -1) ∧
    rc_zero_width.filter = FilterType.Gaussian :=
  ⟨claim_C8_filter.2.2.2 world_raster_ok world_svg_render_none args_blur "blur" rfl rfl,
   claim_C8_filter.1 world_raster_ok args_zero_width rc_zero_width rfl rfl⟩

/-- C9 (amended): the buffer handed to the renderer is exactly the acquired
image — the core never resamples it, so its dimensions are the original
decoded dimensions.  The width/height targets, however, are not guaranteed
strictly positive (see the counterexample). -/
theorem claim_C9_amended (w : World) (args : Args) (call : RenderCall)
    (h : main_flow w args = .ok call) :
    get_image w args.arg_file = .ok call.buffer :=
  (main_flow_ok_inv w args call h).1

/-- C9 (counterexample): a run with `--width 0 --height 1` reaches the
renderer with width 0, refuting the guarantee that the width and height
handed to the renderer are strictly positive. -/
theorem claim_C9_counterexample :
    render_width (main_flow world_raster_ok args_zero_width) = some 0 := rfl

/-- C9 (witness): the buffer identity at the concrete run. -/
theorem claim_C9_witness :
    get_image world_raster_ok args_zero_width.arg_file = .ok rc_zero_width.buffer :=
  claim_C9_amended world_raster_ok args_zero_width rc_zero_width rfl
